import Mathlib

/-!
Verification of the Text2Trait graph resolution / subgraph-expansion /
metadata-enrichment core.

Shallow embedding conventions:
* Python dict attributes that may be absent or `None` are modelled as
  `Option String`; `Option.none` stands for "absent or None", and the
  Python `dict.get(k, default)` discipline is `Option.getD`.
* `networkx.DiGraph` node/edge storage is modelled as association lists
  with dict (replace-on-rewrite) update semantics.
* Fuzzy scorers (`rapidfuzz` WRatio etc.) are modelled as an arbitrary
  function argument `scorer : String → String → ℚ`, exactly as the
  source passes a `scorer` callable into `rapidfuzz.process.extract`;
  score values are rationals in the 0–100 range in practice but no
  bound is assumed.
* The NCBI Entrez network layer is modelled as an oracle record of
  fallible functions; network round-trips and `time.sleep` calls are
  recorded in an explicit event trace.
-/

/-! ## Graph data model (networkx.DiGraph as used by the apps) -/

/-- Node attribute dict: the fields the core reads
(`label`, `text`, `source`); extra forward-compatible attributes are
not read by any modelled operation and are omitted. -/
structure NodeData where
  label : Option String := none
  text : Option String := none
  source : Option String := none
deriving Repr, DecidableEq

/-- Edge attribute dict: the core reads only `type`. -/
structure EdgeData where
  type : Option String := none
deriving Repr, DecidableEq

/-- A `networkx.DiGraph`: node id ↦ attributes, and
(source id, target id) ↦ edge attributes, both with dict semantics
(at most one entry per key when built through `addNode`/`addEdge`). -/
structure DiGraph where
  nodes : List (String × NodeData) := []
  edges : List (String × String × EdgeData) := []
deriving Repr, DecidableEq

/-- Dict-style lookup of a node's attribute dict. -/
def nodeLookup (G : DiGraph) (nid : String) : Option NodeData :=
  (G.nodes.find? (fun p => p.1 == nid)).map (fun p => p.2)

/-- Dict-style lookup of the attributes of edge `(s, t)`
(`graph.get_edge_data(s, t)` in networkx). -/
def edgeLookup (G : DiGraph) (s t : String) : Option EdgeData :=
  (G.edges.find? (fun e => e.1 == s && e.2.1 == t)).map (fun e => e.2.2)

/-! ## Graph loading
(src/gwas_frontend_app/src/utils/data_loader.py, `load_graph`) -/

/-- One record of the nodes JSON file: `{"id", "label"?, "text"?, "source"?}`. -/
structure NodeIn where
  id : String
  label : Option String := none
  text : Option String := none
  source : Option String := none
deriving Repr, DecidableEq

/-- One record of the edges JSON file: `{"source", "target", "type"?}`. -/
structure EdgeIn where
  source : String
  target : String
  type : Option String := none
deriving Repr, DecidableEq

/-- Assoc-list update with dict semantics for node insertion:
`G.add_node(node_id, **attr)`.  When the id is already present the new
`label`/`text` attributes win (they are always present in `attr` after
`setdefault`), while `source` is only overwritten when the new record
carries it — mirroring `dict.update`. -/
def setNode (l : List (String × NodeData)) (n : NodeIn) : List (String × NodeData) :=
  match l with
  | [] => [(n.id, ⟨n.label, n.text, n.source⟩)]
  | x :: xs =>
    if x.1 == n.id then
      (n.id, ⟨n.label, n.text, match n.source with | some s => some s | none => x.2.source⟩) :: xs
    else
      x :: setNode xs n

/-- Assoc-list update with dict semantics for edge insertion:
`G.add_edge(source, target, **edge_attr)`.  A second edge with the same
ordered `(source, target)` pair replaces the stored attributes. -/
def setEdge (l : List (String × String × EdgeData)) (s t : String) (d : EdgeData) :
    List (String × String × EdgeData) :=
  match l with
  | [] => [(s, t, d)]
  | x :: xs => if x.1 == s && x.2.1 == t then (s, t, d) :: xs else x :: setEdge xs s t d

/-- `networkx` auto-creates an attribute-less node for a dangling edge
endpoint. -/
def ensureNode (l : List (String × NodeData)) (nid : String) : List (String × NodeData) :=
  if l.any (fun p => p.1 == nid) then l else l ++ [(nid, ⟨none, none, none⟩)]

/-- `G.add_node(node["id"], **attr)` step of `load_graph`. -/
def addNode (G : DiGraph) (n : NodeIn) : DiGraph :=
  { G with nodes := setNode G.nodes n }

/-- `G.add_edge(source, target, **edge_attr)` step of `load_graph`. -/
def addEdge (G : DiGraph) (e : EdgeIn) : DiGraph :=
  { nodes := ensureNode (ensureNode G.nodes e.source) e.target,
    edges := setEdge G.edges e.source e.target ⟨e.type⟩ }

/-- `load_graph(nodes_path, edges_path)` after JSON parsing: builds a
`DiGraph` by adding every node record then every edge record.  (The
Python function also returns the raw combined JSON dict, which carries
no extra information and is omitted here.) -/
def load_graph (ns : List NodeIn) (es : List EdgeIn) : DiGraph :=
  es.foldl addEdge (ns.foldl addNode {})

/-! ## Search utilities
(src/text2trait_forntend_app/src/utils/search_utils.py) -/

/-- `is_trait_node`: label is in `{"Trait", "Trait / Phenotype"}`. -/
def is_trait_node (d : NodeData) : Bool :=
  d.label == some "Trait" || d.label == some "Trait / Phenotype"

/-- `is_gene_node`: label equals `"Gene"`. -/
def is_gene_node (d : NodeData) : Bool :=
  d.label == some "Gene"

/-- `get_node_name`: `G.nodes[node_id].get("text", node_id)`. -/
def get_node_name (G : DiGraph) (nid : String) : String :=
  match nodeLookup G nid with
  | some d => d.text.getD nid
  | none => nid

/-- `trait_query in graph.nodes and is_trait_node(graph.nodes[trait_query])`. -/
def isTraitId (G : DiGraph) (q : String) : Bool :=
  match nodeLookup G q with
  | some d => is_trait_node d
  | none => false

/-- Gene-labelled membership test used when filtering neighbours. -/
def isGeneId (G : DiGraph) (q : String) : Bool :=
  match nodeLookup G q with
  | some d => is_gene_node d
  | none => false

/-- The `trait_nodes` comprehension of `find_best_traits`:
`{n_id: data.get("text", n_id) for n_id, data in graph.nodes(data=True) if is_trait_node(data)}`. -/
def traitNodes (G : DiGraph) : List (String × String) :=
  G.nodes.filterMap (fun p =>
    if is_trait_node p.2 then some (p.1, p.2.text.getD p.1) else none)

/-- Stable insertion into a score-descending list: the new element goes
before the first element whose score is ≤ its own, so earlier-encountered
choices stay first among ties. -/
def insertDesc (x : String × ℚ × String) :
    List (String × ℚ × String) → List (String × ℚ × String)
  | [] => [x]
  | y :: ys => if y.2.1 ≤ x.2.1 then x :: y :: ys else y :: insertDesc x ys

/-- Stable sort by descending score. -/
def sortDesc : List (String × ℚ × String) → List (String × ℚ × String)
  | [] => []
  | x :: xs => insertDesc x (sortDesc xs)

/-- `rapidfuzz.process.extract(query, choices, scorer, limit)`:
score every choice, order by descending score (stable), return the
top `limit` entries as `(choice_text, score, key)` triples. -/
def extract (q : String) (choices : List (String × String))
    (scorer : String → String → ℚ) (limit : Nat) : List (String × ℚ × String) :=
  (sortDesc (choices.map (fun c => (c.2, scorer q c.2, c.1)))).take limit

/-- `rapidfuzz.process.extractOne`: the single best match, `none` when
there are no choices. -/
def extractOne (q : String) (choices : List (String × String))
    (scorer : String → String → ℚ) : Option (String × ℚ × String) :=
  (extract q choices scorer 1).head?

/-- `find_best_traits(graph, trait_query, limit, min_score, scorer)`:
fuzzy-match trait nodes by text, keep scores ≥ `min_score`, return
`(node_id, score)` pairs. -/
def find_best_traits (G : DiGraph) (trait_query : String) (limit : Nat)
    (min_score : ℚ) (scorer : String → String → ℚ) : List (String × ℚ) :=
  ((extract trait_query (traitNodes G) scorer limit).filter
    (fun m => min_score ≤ m.2.1)).map (fun m => (m.2.2, m.2.1))

/-- `matched_genes` entry: `{"gene_id": ..., "gene_name": ...}`. -/
structure GeneMatch where
  gene_id : String
  gene_name : String
deriving Repr, DecidableEq

/-- Result dict of `resolve_trait_and_genes`. -/
structure ResolveResult where
  trait_id : String
  trait_name : String
  matched_genes : List GeneMatch
deriving Repr, DecidableEq

/-- `graph.predecessors(t)`: sources of edges into `t`. -/
def predecessors (G : DiGraph) (t : String) : List String :=
  G.edges.filterMap (fun e => if e.2.1 == t then some e.1 else none)

/-- `graph.successors(t)`: targets of edges out of `t`. -/
def successors (G : DiGraph) (t : String) : List String :=
  G.edges.filterMap (fun e => if e.1 == t then some e.2.1 else none)

/-- The "Find trait" block of `resolve_trait_and_genes`: exact-id
short-circuit when the query is the id of a trait-labelled node,
otherwise the first fuzzy candidate of `find_best_traits` (defaults:
`limit=5`), `none` when there is no fuzzy candidate. -/
def resolveTraitId (G : DiGraph) (trait_query : String) (min_score : ℚ)
    (scorer : String → String → ℚ) : Option String :=
  if isTraitId G trait_query then some trait_query
  else
    match find_best_traits G trait_query 5 min_score scorer with
    | [] => none
    | (tid, _) :: _ => some tid

/-- The "Find all connected genes" block: every gene-labelled member of
`set(graph.predecessors(trait_id)) | set(graph.successors(trait_id))`,
as `{"gene_id", "gene_name"}` records.  The Python set iteration is
determinised as first-occurrence `dedup` of predecessors then
successors; all claims about the result are order-insensitive. -/
def candidateGenes (G : DiGraph) (trait_id : String) : List GeneMatch :=
  (((predecessors G trait_id ++ successors G trait_id).dedup).filter
    (fun n => isGeneId G n)).map (fun n => ⟨n, get_node_name G n⟩)

/-- The "Filter if gene_query provided" block of
`resolve_trait_and_genes`: `if gene_query and candidate_genes:` — a
missing/empty query or empty candidate set leaves the candidates as-is;
otherwise a direct id match wins, else the single best fuzzy match
above `min_score`, else no gene. -/
def filterByGeneQuery (gene_query : Option String) (min_score : ℚ)
    (scorer : String → String → ℚ) (candidate_genes : List GeneMatch) : List GeneMatch :=
  match gene_query with
  | none => candidate_genes
  | some gq =>
    if gq == "" || candidate_genes.isEmpty then candidate_genes
    else if candidate_genes.any (fun g => g.gene_id == gq) then
      candidate_genes.filter (fun g => g.gene_id == gq)
    else
      match extractOne gq (candidate_genes.map (fun g => (g.gene_id, g.gene_name))) scorer with
      | some (_, score, best_id) =>
        if min_score ≤ score then candidate_genes.filter (fun g => g.gene_id == best_id)
        else []
      | none => []

/-- `resolve_trait_and_genes(graph, trait_query, gene_query, min_score)`:
resolve the trait (exact id first, fuzzy second; `none` on failure),
collect connected gene neighbours, optionally filter them by the gene
query.  The scorer argument stands for the `fuzz.WRatio` default used
by the source. -/
def resolve_trait_and_genes (G : DiGraph) (trait_query : String)
    (gene_query : Option String) (min_score : ℚ)
    (scorer : String → String → ℚ) : Option ResolveResult :=
  match resolveTraitId G trait_query min_score scorer with
  | none => none
  | some trait_id =>
    some ⟨trait_id, get_node_name G trait_id,
          filterByGeneQuery gene_query min_score scorer (candidateGenes G trait_id)⟩

/-! ## Subgraph expansion
(src/text2trait_forntend_app/src/utils/search_utils.py, `get_connected_subgraph`) -/

/-- Successor iteration paired with `get_edge_data(n, neighbor)`. -/
def successorsE (G : DiGraph) (n : String) : List (String × EdgeData) :=
  G.edges.filterMap (fun e => if e.1 == n then some (e.2.1, e.2.2) else none)

/-- Predecessor iteration paired with `get_edge_data(neighbor, n)`. -/
def predecessorsE (G : DiGraph) (n : String) : List (String × EdgeData) :=
  G.edges.filterMap (fun e => if e.2.1 == n then some (e.1, e.2.2) else none)

/-- A `nodes_data` record of the returned subgraph dict. -/
structure DisplayNode where
  id : String
  label : String
  text : String
  source : String
deriving Repr, DecidableEq

/-- The subgraph dict `{"nodes": ..., "edges": ...}`; each edge record is
`(source, target, edge attributes)`. -/
structure Subgraph where
  nodes : List DisplayNode
  edges : List (String × String × EdgeData)
deriving Repr, DecidableEq

/-- The display record built for node `nid`:
`{"id": nid, "label": ….get("label","unknown"), "text": get_node_name, "source": ….get("source","")}`. -/
def displayNode (G : DiGraph) (nid : String) : DisplayNode :=
  match nodeLookup G nid with
  | some d => ⟨nid, d.label.getD "unknown", d.text.getD nid, d.source.getD ""⟩
  | none => ⟨nid, "unknown", nid, ""⟩

/-- `get_connected_subgraph(graph, focus_nodes)`: for every focus node,
record each outgoing edge `(n, succ, data)` then each incoming edge
`(pred, n, data)`; the node set is the focus nodes plus all touched
neighbours (the Python set is determinised as first-occurrence `dedup`). -/
def get_connected_subgraph (G : DiGraph) (focus_nodes : List String) : Subgraph :=
  let connected_nodes : List String :=
    (focus_nodes ++ focus_nodes.flatMap (fun n =>
      (successorsE G n).map (fun p => p.1) ++ (predecessorsE G n).map (fun p => p.1))).dedup
  let connected_edges : List (String × String × EdgeData) :=
    focus_nodes.flatMap (fun n =>
      (successorsE G n).map (fun p => (n, p.1, p.2)) ++
      (predecessorsE G n).map (fun p => (p.1, n, p.2)))
  ⟨connected_nodes.map (displayNode G), connected_edges⟩

/-! ## NCBI metadata client
(src/text2trait_forntend_app/src/utils/search_NCBI.py and
src/gwas_frontend_app/src/utils/search_NCBI.py)

Network effects are modelled with an `Entrez` oracle of fallible
functions (an `Except.error` is a raised Python exception) and an
explicit event trace: `Ev.net` for each Entrez round-trip and
`Ev.sleep` for each `time.sleep(_SLEEP_BETWEEN_CALLS)`. -/

/-- Observable effects of a lookup. -/
inductive Ev where
  | net
  | sleep
deriving Repr, DecidableEq

/-- Number of network round-trips in a trace. -/
def netCount (tr : List Ev) : Nat := (tr.filter (fun e => e == Ev.net)).length

/-- Number of rate-limit delays in a trace. -/
def sleepCount (tr : List Ev) : Nat := (tr.filter (fun e => e == Ev.sleep)).length

/-- One `GenomicInfo` segment of a gene DocumentSummary; the `.get(k, "")`
defaults of the source are pre-applied, so fields are plain strings. -/
structure GenomicSeg where
  chrAccVer : String := ""
  chrStart : String := ""
  chrStop : String := ""
  chrStrand : String := ""
deriving Repr, DecidableEq

/-- A gene DocumentSummary as delivered by `Entrez.esummary(db="gene")`
(after `_safe_to_python`); `idField`/`geneIdField` are the `"Id"` and
`"GeneID"` keys read by the gwas normalizer. -/
structure GeneDoc where
  name : Option String := none
  description : Option String := none
  chromosome : Option String := none
  otherAliases : Option String := none
  summary : Option String := none
  organismSci : Option String := none
  genomicInfo : List GenomicSeg := []
  idField : Option String := none
  geneIdField : Option String := none
deriving Repr, DecidableEq

/-- A protein DocumentSummary as delivered by `Entrez.esummary(db="protein")`. -/
structure ProtDoc where
  accessionVersion : Option String := none
  title : Option String := none
  organismSci : Option String := none
  length : Option String := none
deriving Repr, DecidableEq

/-- The flat record returned by the fetchers.  Absent dict keys are
`none`; `not_found` is the `"not_found": True` marker.  The `raw` field
of the source (the full DocumentSummary) is not read anywhere and is
omitted. -/
structure NCBIRecord where
  query : Option String := none
  not_found : Bool := false
  error : Option String := none
  name : Option String := none
  description : Option String := none
  chromosome : Option String := none
  otherAliases : Option String := none
  summary : Option String := none
  organism : Option String := none
  genomicInfo : Option String := none
  accessionVersion : Option String := none
  sequenceLength : Option String := none
  geneID : Option String := none
  type : Option String := none
  _key : Option String := none
  graph_id : Option String := none
  graph_name : Option String := none
deriving Repr, DecidableEq

/-- The on-disk JSON cache, key ↦ record, with dict update semantics.
(`_save_cache` rewrites the same mapping to disk; only the mapping is
modelled.) -/
def Cache := List (String × NCBIRecord)

/-- Dict lookup in the cache. -/
def lookupCache (c : Cache) (k : String) : Option NCBIRecord :=
  ((c : List (String × NCBIRecord)).find? (fun p => p.1 == k)).map (fun p => p.2)

/-- Dict assignment `_cache[key] = result`. -/
def insertCache (c : Cache) (k : String) (v : NCBIRecord) : Cache :=
  match c with
  | [] => [(k, v)]
  | x :: xs => if x.1 == k then (k, v) :: xs else x :: insertCache xs k v

/-- The Entrez network oracle: search/summary per database.  Each field
application that the code performs is one network round-trip; an
`Except.error` models a raised exception. -/
structure Entrez where
  esearchGene : String → Except String (List String)
  esummaryGene : String → Except String (List GeneDoc)
  esearchProtein : String → Except String (List String)
  esummaryProtein : String → Except String (List ProtDoc)

/-- Location string built for one `GenomicInfo` segment:
`acc` then `start-stop` then `strand=s`, first part separated from the
rest by a space. -/
def formatSeg (g : GenomicSeg) : String :=
  let loc_parts : List String :=
    (if g.chrAccVer = "" then [] else [g.chrAccVer]) ++
    (if g.chrStart ≠ "" ∧ g.chrStop ≠ "" then [g.chrStart ++ "-" ++ g.chrStop] else []) ++
    (if g.chrStrand = "" then [] else ["strand=" ++ g.chrStrand])
  match loc_parts with
  | [] => ""
  | p :: rest => p ++ (if rest.isEmpty then "" else " " ++ String.intercalate " " rest)

/-- `"; ".join` of the non-empty segment strings. -/
def formatGenomicInfo (gs : List GenomicSeg) : String :=
  String.intercalate "; " (((gs.map formatSeg).filter (fun s => s ≠ "")))

/-- `_normalize_gene_doc` (text2trait variant): flatten a gene
DocumentSummary, defaulting every field to `""`. -/
def normalize_gene_doc (ds : GeneDoc) : NCBIRecord :=
  { name := some (ds.name.getD ""),
    description := some (ds.description.getD ""),
    chromosome := some (ds.chromosome.getD ""),
    otherAliases := some (ds.otherAliases.getD ""),
    summary := some (ds.summary.getD ""),
    organism := some (ds.organismSci.getD ""),
    genomicInfo := some (formatGenomicInfo ds.genomicInfo) }

/-- `_normalize_docsummary` (gwas variant): same as the text2trait gene
normalizer plus the `GeneID` field (`str(ds.get("Id","")) or
str(ds.get("GeneID","")) or ""`). -/
def normalize_docsummary (ds : GeneDoc) : NCBIRecord :=
  { normalize_gene_doc ds with
    geneID := some (if ds.idField.getD "" ≠ "" then ds.idField.getD ""
                    else if ds.geneIdField.getD "" ≠ "" then ds.geneIdField.getD "" else "") }

/-- `_normalize_protein_doc`: accession, title-as-description, organism,
sequence length. -/
def normalize_protein_doc (ds : ProtDoc) : NCBIRecord :=
  { accessionVersion := some (ds.accessionVersion.getD ""),
    description := some (ds.title.getD ""),
    organism := some (ds.organismSci.getD ""),
    sequenceLength := some (ds.length.getD "") }

/-- Python `str.lower()` spelled as an executable character map (the
names compared in the source are ASCII). -/
def pyLower (s : String) : String := ⟨s.data.map Char.toLower⟩

/-- Characters before the first occurrence of the separator. -/
def upToChar : List Char → Char → List Char
  | [], _ => []
  | c :: cs, sep => if c = sep then [] else c :: upToChar cs sep

/-- Python `s.split(".")[0]`: the prefix of `s` before the first dot
(`s` itself when there is none). -/
def headSplitDot (s : String) : String := ⟨upToChar s.data '.'⟩

/-- The `{"query": name, "not_found": True}` record. -/
def notFoundRec (name : String) : NCBIRecord :=
  { query := some name, not_found := true }

/-- `fetch_gene_info_by_name(name, organism)` (text2trait variant):
esearch on `"{name}[Gene] AND {organism}"`, then esummary on the id
list; prefer an exact case-insensitive `Name` match, else the first
document; sleeps only before the successful return.  There is no cache
in this function. -/
def fetch_gene_info_by_name (o : Entrez) (name : String) (organism : Option String) :
    Except String (NCBIRecord × List Ev) :=
  let org := organism.getD "txid4081[Organism:exp]"
  let query := name ++ "[Gene] AND " ++ org
  match o.esearchGene query with
  | .error e => .error e
  | .ok idlist =>
    if idlist.isEmpty then .ok (notFoundRec name, [Ev.net])
    else
      match o.esummaryGene (String.intercalate "," idlist) with
      | .error e => .error e
      | .ok docs =>
        let best : Option GeneDoc :=
          match docs.find? (fun d => pyLower (d.name.getD "") == pyLower name) with
          | some d => some d
          | none => docs.head?
        match best with
        | none => .ok (notFoundRec name, [Ev.net, Ev.net])
        | some d =>
          .ok ({ normalize_gene_doc d with query := some name }, [Ev.net, Ev.net, Ev.sleep])

/-- `fetch_protein_info(name, organism)` (text2trait): cache under
`"protein:{name}"`; on a hit, return the cached record with no network
round-trip and no delay.  On a miss, esearch on `"{name} AND {organism}"`
then esummary; prefer an exact case-insensitive accession-root match
(`AccessionVersion` up to the first `"."`), else the first document.
`not_found` outcomes are returned without writing the cache and without
sleeping; a successful record is written through to the cache and the
delay runs before the return. -/
def fetch_protein_info (o : Entrez) (c : Cache) (name : String) (organism : Option String) :
    Except String (NCBIRecord × Cache × List Ev) :=
  let key := "protein:" ++ name
  match lookupCache c key with
  | some r => .ok (r, c, [])
  | none =>
    let org := organism.getD "txid4081[Organism:exp]"
    let query := name ++ " AND " ++ org
    match o.esearchProtein query with
    | .error e => .error e
    | .ok idlist =>
      if idlist.isEmpty then .ok (notFoundRec name, c, [Ev.net])
      else
        match o.esummaryProtein (String.intercalate "," idlist) with
        | .error e => .error e
        | .ok docs =>
          let nameRoot := pyLower (headSplitDot name)
          let best : Option ProtDoc :=
            match docs.find? (fun d =>
                pyLower (headSplitDot (d.accessionVersion.getD "")) == nameRoot) with
            | some d => some d
            | none => docs.head?
          match best with
          | none => .ok (notFoundRec name, c, [Ev.net, Ev.net])
          | some d =>
            let r := { normalize_protein_doc d with query := some name }
            .ok (r, insertCache c key r, [Ev.net, Ev.net, Ev.sleep])

/-- `fetch_gene_info_by_geneid(gene_id)` (gwas variant): cache under
`"gid:{gene_id}"`; on a miss, a single esummary round-trip; the result —
found or `not_found` — is always cached and the delay always runs before
the return. -/
def fetch_gene_info_by_geneid (o : Entrez) (c : Cache) (gene_id : String) :
    Except String (NCBIRecord × Cache × List Ev) :=
  let key := "gid:" ++ gene_id
  match lookupCache c key with
  | some r => .ok (r, c, [])
  | none =>
    match o.esummaryGene gene_id with
    | .error e => .error e
    | .ok docs =>
      let result :=
        match docs with
        | [] => { geneID := some gene_id, not_found := true : NCBIRecord }
        | d :: _ => normalize_docsummary d
      .ok (result, insertCache c key result, [Ev.net, Ev.sleep])

/-- One entry of the `nodes` argument of `fetch_multiple_nodes_info`:
`{"type"?, "name"?, "id"?}`. -/
structure BatchNode where
  type : Option String := none
  name : Option String := none
  id : Option String := none
deriving Repr, DecidableEq

/-- Python f-string rendering of a possibly-`None` value. -/
def pyStr (o : Option String) : String := o.getD "None"

/-- `node.get("type", "gene")`. -/
def nodeTypeOf (n : BatchNode) : String := n.type.getD "gene"

/-- `node.get("id") or name_or_id` (Python `or`: empty string and `None`
are falsy). -/
def nodeIdOf (n : BatchNode) : Option String :=
  match n.id with
  | some s => if s = "" then n.name else some s
  | none => n.name

/-- The body of the `try` block of `fetch_multiple_nodes_info` for one
entity: dispatch on the node type (gene → uncached by-name fetch,
protein → cached fetch, anything else → immediate `not_found` record
with no network call), then stamp `_key`, `graph_id` and `graph_name`
onto the record. -/
def fetchOneNode (o : Entrez) (c : Cache) (n : BatchNode) (organism : Option String) :
    Except String (NCBIRecord × Cache × List Ev) :=
  let node_type := nodeTypeOf n
  let name_or_id := n.name
  let node_id := nodeIdOf n
  let fetched : Except String (NCBIRecord × Cache × List Ev) :=
    if node_type = "gene" then
      (fetch_gene_info_by_name o (pyStr name_or_id) organism).map (fun p => (p.1, c, p.2))
    else if node_type = "protein" then
      fetch_protein_info o c (pyStr name_or_id) organism
    else
      .ok ({ not_found := true, query := name_or_id, type := some node_type }, c, [])
  fetched.map (fun p =>
    ({ p.1 with _key := some (node_type ++ ":" ++ pyStr node_id),
                graph_id := node_id,
                graph_name := name_or_id }, p.2.1, p.2.2))

/-- The record appended by the `except` branch of
`fetch_multiple_nodes_info`:
`{"_key": f"{node_type}:{name_or_id}", "not_found": True, "error": str(e)}`. -/
def errRec (n : BatchNode) (e : String) : NCBIRecord :=
  { _key := some (nodeTypeOf n ++ ":" ++ pyStr n.name), not_found := true, error := some e }

/-- `fetch_multiple_nodes_info(nodes, organism)` (text2trait): sequential
loop; each entity appends exactly one record; a raised exception is
caught per entity and converted to `errRec`, leaving the cache untouched
and continuing with the remaining entities. -/
def fetch_multiple_nodes_info (o : Entrez) (c : Cache) (ns : List BatchNode)
    (organism : Option String) : List NCBIRecord × Cache × List Ev :=
  match ns with
  | [] => ([], c, [])
  | n :: rest =>
    match fetchOneNode o c n organism with
    | .ok (r, c', tr) =>
      let acc := fetch_multiple_nodes_info o c' rest organism
      (r :: acc.1, acc.2.1, tr ++ acc.2.2)
    | .error e =>
      let acc := fetch_multiple_nodes_info o c rest organism
      (errRec n e :: acc.1, acc.2.1, acc.2.2)

/-! ## Helper lemmas -/

/-- Filtering with a stronger predicate never yields more elements. -/
theorem length_filter_le_of_imp (l : List α) (p q : α → Bool)
    (h : ∀ a, q a = true → p a = true) :
    (l.filter q).length ≤ (l.filter p).length := by
  induction l with
  | nil => simp
  | cons x xs ih =>
    rw [List.filter_cons, List.filter_cons]
    cases hq : q x with
    | true =>
      rw [h x hq]
      simpa using Nat.succ_le_succ ih
    | false =>
      cases hp : p x with
      | true =>
        simpa using Nat.le_succ_of_le ih
      | false =>
        simpa using ih

/-- The id stored in a display record is the node id it was built for. -/
theorem displayNode_id (G : DiGraph) (nid : String) : (displayNode G nid).id = nid := by
  unfold displayNode
  cases nodeLookup G nid <;> rfl

/-- Dict update puts the value under the key. -/
theorem lookupCache_insertCache_self (c : Cache) (k : String) (v : NCBIRecord) :
    lookupCache (insertCache c k v) k = some v := by
  induction c with
  | nil => simp [insertCache, lookupCache]
  | cons x xs ih =>
    by_cases hx : x.1 == k
    · simp [insertCache, hx, lookupCache]
    · simp only [insertCache, hx, if_false, Bool.false_eq_true]
      simpa [lookupCache, List.find?, hx] using ih

/-! ## Claims C3, C7, C9 -/

/-- A scorer assigning similarity 0 to every pair; used as a concrete
instantiation of the scorer parameter in counterexamples and witnesses. -/
def zeroScorer : String → String → ℚ := fun _ _ => 0

/-- A one-node graph whose only node is the trait "t1" with display text
"zzz", entirely dissimilar from the id. -/
def C3graph : DiGraph :=
  ⟨[("t1", ⟨some "Trait", some "zzz", none⟩)], []⟩

/-- C3 counterexample: "t1" is the id of a trait-labelled node, yet
`find_best_traits` — the function that produces scored candidates —
has no exact-id branch: with a scorer under the floor it returns the
empty list rather than `("t1", 100)`.  The claimed "returns X directly
with score 100 regardless of fuzzy similarity" is false of the scored
trait resolution. -/
theorem C3_counterexample :
    isTraitId C3graph "t1" = true ∧
    find_best_traits C3graph "t1" 5 70 zeroScorer = [] ∧
    ("t1", (100 : ℚ)) ∉ find_best_traits C3graph "t1" 5 70 zeroScorer := by
  refine ⟨rfl, by decide, by decide⟩

/-- C3 (amended): the exact-id short-circuit lives in
`resolve_trait_and_genes`: whenever the query equals the id of a
trait-labelled node, the resolved trait is that id, for every scorer
and threshold — fuzzy scoring is bypassed — but no numeric score is
attached to the result. -/
theorem C3_exact_id_shortcircuit (G : DiGraph) (q : String) (gq : Option String)
    (ms : ℚ) (scorer : String → String → ℚ) (h : isTraitId G q = true) :
    (resolve_trait_and_genes G q gq ms scorer).map (fun r => r.trait_id) = some q := by
  simp [resolve_trait_and_genes, resolveTraitId, h]

/-- C3 witness: the amended theorem applied to the counterexample graph
with the zero scorer. -/
theorem C3_exact_id_shortcircuit_witness :
    (resolve_trait_and_genes C3graph "t1" none 70 zeroScorer).map (fun r => r.trait_id) =
      some "t1" :=
  C3_exact_id_shortcircuit C3graph "t1" none 70 zeroScorer rfl

/-- C7: when the query is not the id of a trait-labelled node and fuzzy
matching clears nobody over the floor (`find_best_traits` empty),
`resolve_trait_and_genes` returns the sentinel `none`.  The Lean
function is total, so no exception can be raised on this path. -/
theorem C7_no_match_returns_none (G : DiGraph) (q : String) (gq : Option String)
    (ms : ℚ) (scorer : String → String → ℚ)
    (h1 : isTraitId G q = false)
    (h2 : find_best_traits G q 5 ms scorer = []) :
    resolve_trait_and_genes G q gq ms scorer = none := by
  simp [resolve_trait_and_genes, resolveTraitId, h1, h2]

/-- C7 witness: the query "nonexistent trait xyz" against the
one-trait graph resolves to `none`. -/
theorem C7_no_match_returns_none_witness :
    resolve_trait_and_genes C3graph "nonexistent trait xyz" none 70 zeroScorer = none :=
  C7_no_match_returns_none C3graph "nonexistent trait xyz" none 70 zeroScorer rfl (by decide)

/-- C9: threshold monotonicity — for one and the same query, limit and
scorer, raising the score floor never increases the number of
candidates returned by `find_best_traits`, because the floor is applied
as a filter over the same extracted candidate list. -/
theorem C9_threshold_monotone (G : DiGraph) (q : String) (limit : Nat)
    (scorer : String → String → ℚ) (m1 m2 : ℚ) (h : m1 ≤ m2) :
    (find_best_traits G q limit m2 scorer).length ≤
      (find_best_traits G q limit m1 scorer).length := by
  unfold find_best_traits
  rw [List.length_map, List.length_map]
  refine length_filter_le_of_imp _ _ _ (fun a ha => ?_)
  simp only [decide_eq_true_eq] at ha ⊢
  exact le_trans h ha

/-- C9 witness: floors 70 ≤ 80 on the one-trait graph. -/
theorem C9_threshold_monotone_witness :
    (find_best_traits C3graph "zzz" 5 80 zeroScorer).length ≤
      (find_best_traits C3graph "zzz" 5 70 zeroScorer).length :=
  C9_threshold_monotone C3graph "zzz" 5 zeroScorer 70 80 (by norm_num)

/-! ## Claim C4 -/

/-- C4: with no gene query, the matched genes of
`resolve_trait_and_genes` are exactly the gene-labelled neighbours of
the resolved trait, in either edge direction, with no relation-type
filtering: membership in the matched gene-id list is equivalent to
being a gene-labelled predecessor or successor of the trait node. -/
theorem C4_all_connected_genes (G : DiGraph) (tq : String) (ms : ℚ)
    (scorer : String → String → ℚ) (res : ResolveResult)
    (h : resolve_trait_and_genes G tq none ms scorer = some res) (gid : String) :
    gid ∈ res.matched_genes.map (fun g => g.gene_id) ↔
      ((gid ∈ predecessors G res.trait_id ∨ gid ∈ successors G res.trait_id) ∧
        isGeneId G gid = true) := by
  unfold resolve_trait_and_genes at h
  cases htid : resolveTraitId G tq ms scorer with
  | none => rw [htid] at h; exact absurd h (by simp)
  | some tid =>
    rw [htid] at h
    have hres : res =
        ⟨tid, get_node_name G tid, filterByGeneQuery none ms scorer (candidateGenes G tid)⟩ :=
      (Option.some.inj h).symm
    subst hres
    simp only [filterByGeneQuery, candidateGenes, List.map_map]
    constructor
    · intro hmem
      obtain ⟨n, hn, hng⟩ := List.mem_map.mp hmem
      obtain ⟨hnd, hgene⟩ := List.mem_filter.mp hn
      rcases List.mem_append.mp (List.mem_dedup.mp hnd) with hp | hs
      · exact hng ▸ ⟨Or.inl hp, hgene⟩
      · exact hng ▸ ⟨Or.inr hs, hgene⟩
    · intro ⟨hnb, hgene⟩
      refine List.mem_map.mpr ⟨gid, List.mem_filter.mpr ⟨List.mem_dedup.mpr ?_, hgene⟩, rfl⟩
      exact List.mem_append.mpr hnb

/-- The end-to-end example graph of the spec: trait "t1" (Flowering
time) with genes "g1" (FT) and "g2" (CO) pointing at it. -/
def C4graph : DiGraph :=
  ⟨[("t1", ⟨some "Trait", some "Flowering time", none⟩),
    ("g1", ⟨some "Gene", some "FT", none⟩),
    ("g2", ⟨some "Gene", some "CO", none⟩)],
   [("g1", "t1", ⟨some "CONTRIBUTES_TO"⟩),
    ("g2", "t1", ⟨some "REGULATES"⟩)]⟩

/-- The result computed by `resolve_trait_and_genes` on `C4graph` for
query "t1" with no gene query. -/
def C4res : ResolveResult :=
  ⟨"t1", "Flowering time", [⟨"g1", "FT"⟩, ⟨"g2", "CO"⟩]⟩

/-- C4 witness: the characterization applied to the flowering-time
graph for gene "g1". -/
theorem C4_all_connected_genes_witness :
    "g1" ∈ C4res.matched_genes.map (fun g => g.gene_id) ↔
      (("g1" ∈ predecessors C4graph C4res.trait_id ∨
        "g1" ∈ successors C4graph C4res.trait_id) ∧ isGeneId C4graph "g1" = true) :=
  C4_all_connected_genes C4graph "t1" 70 zeroScorer C4res (by decide) "g1"

/-! ## Claims C6 and C10 -/

/-- C6: expansion symmetry and the isolated-focus edge case.  For a
focus node `N` of the graph: (1) every edge of the graph with `N` as
source or target appears in the expanded subgraph; (2) every edge of
the expanded subgraph has `N` as source or target; (3) if no edge
touches `N`, the subgraph is exactly the single display record for `N`
with an empty edge list (the function is total, so no error is
possible).  The membership hypothesis mirrors Python, where
`graph.successors` on an unknown node would raise. -/
theorem C6_expansion_symmetry (G : DiGraph) (N : String)
    (hN : N ∈ G.nodes.map (fun p => p.1)) :
    (∀ s t d, (s, t, d) ∈ G.edges → s = N ∨ t = N →
        (s, t, d) ∈ (get_connected_subgraph G [N]).edges) ∧
    (∀ s t d, (s, t, d) ∈ (get_connected_subgraph G [N]).edges → s = N ∨ t = N) ∧
    ((∀ s t d, (s, t, d) ∈ G.edges → s ≠ N ∧ t ≠ N) →
      (get_connected_subgraph G [N]).nodes = [displayNode G N] ∧
      (get_connected_subgraph G [N]).edges = []) := by
  refine ⟨?_, ?_, ?_⟩
  · intro s t d hmem hst
    simp only [get_connected_subgraph, List.flatMap_cons, List.flatMap_nil, List.append_nil]
    rcases hst with rfl | rfl
    · exact List.mem_append_left _
        (List.mem_map.mpr ⟨(t, d), List.mem_filterMap.mpr ⟨(s, t, d), hmem, by simp⟩, rfl⟩)
    · exact List.mem_append_right _
        (List.mem_map.mpr ⟨(s, d), List.mem_filterMap.mpr ⟨(s, t, d), hmem, by simp⟩, rfl⟩)
  · intro s t d h
    simp only [get_connected_subgraph, List.flatMap_cons, List.flatMap_nil,
      List.append_nil, List.mem_append, List.mem_map] at h
    rcases h with ⟨p, _, hp⟩ | ⟨p, _, hp⟩
    · exact Or.inl (congrArg Prod.fst hp).symm
    · exact Or.inr (congrArg (fun q => q.2.1) hp).symm
  · intro hno
    have hs : successorsE G N = [] := by
      refine List.filterMap_eq_nil_iff.mpr ?_
      rintro ⟨a, b, c⟩ he
      simp [(hno a b c he).1]
    have hp : predecessorsE G N = [] := by
      refine List.filterMap_eq_nil_iff.mpr ?_
      rintro ⟨a, b, c⟩ he
      simp [(hno a b c he).2]
    constructor
    · simp [get_connected_subgraph, hs, hp, List.dedup_cons_of_not_mem]
    · simp [get_connected_subgraph, hs, hp]

/-- A graph with a single isolated node "x". -/
def C6graph : DiGraph := ⟨[("x", ⟨some "Trait", some "lonely", none⟩)], []⟩

/-- C6 witness: the isolated focus node "x" yields exactly its own
display record and no edges. -/
theorem C6_expansion_symmetry_witness :
    (get_connected_subgraph C6graph ["x"]).nodes = [displayNode C6graph "x"] ∧
    (get_connected_subgraph C6graph ["x"]).edges = [] :=
  (C6_expansion_symmetry C6graph "x" (by decide)).2.2
    (by intro s t d hmem; exact absurd hmem (by simp [C6graph]))

/-- C10 (implicit duplicate-edge behaviour): when two distinct focus
nodes `A` and `B` are joined by an edge `(A, B, d)`, the expansion over
`[A, B]` records that edge at least twice — once from `A`'s successor
loop and once from `B`'s predecessor loop — while the node list stays
free of duplicate ids. -/
theorem C10_duplicate_edges (G : DiGraph) (A B : String) (d : EdgeData)
    (hAB : A ≠ B) (hmem : (A, B, d) ∈ G.edges) :
    2 ≤ ((get_connected_subgraph G [A, B]).edges.filter
          (fun e => e = (A, B, d))).length ∧
    ((get_connected_subgraph G [A, B]).nodes.map (fun n => n.id)).Nodup := by
  constructor
  · have h1 : (A, B, d) ∈ (successorsE G A).map (fun p => (A, p.1, p.2)) :=
      List.mem_map.mpr ⟨(B, d), List.mem_filterMap.mpr ⟨(A, B, d), hmem, by simp⟩, rfl⟩
    have h2 : (A, B, d) ∈ (predecessorsE G B).map (fun p => (p.1, B, p.2)) :=
      List.mem_map.mpr ⟨(A, d), List.mem_filterMap.mpr ⟨(A, B, d), hmem, by simp⟩, rfl⟩
    have l1 : 1 ≤ (((successorsE G A).map (fun p => (A, p.1, p.2))).filter
        (fun e => e = (A, B, d))).length := by
      have : (A, B, d) ∈ ((successorsE G A).map (fun p => (A, p.1, p.2))).filter
          (fun e => e = (A, B, d)) := List.mem_filter.mpr ⟨h1, by simp⟩
      exact List.length_pos.mpr (List.ne_nil_of_mem this)
    have l2 : 1 ≤ (((predecessorsE G B).map (fun p => (p.1, B, p.2))).filter
        (fun e => e = (A, B, d))).length := by
      have : (A, B, d) ∈ ((predecessorsE G B).map (fun p => (p.1, B, p.2))).filter
          (fun e => e = (A, B, d)) := List.mem_filter.mpr ⟨h2, by simp⟩
      exact List.length_pos.mpr (List.ne_nil_of_mem this)
    simp only [get_connected_subgraph, List.flatMap_cons, List.flatMap_nil,
      List.append_nil, List.filter_append, List.length_append]
    omega
  · have hid : ∀ l : List String, l.map (fun nid => (displayNode G nid).id) = l := by
      intro l
      induction l with
      | nil => rfl
      | cons x xs ih => simp [displayNode_id, ih]
    simp only [get_connected_subgraph, List.map_map, Function.comp_def]
    rw [hid]
    exact List.nodup_dedup _

/-- C10 witness: the flowering-time graph with focus nodes "g1" and
"t1", joined by the CONTRIBUTES_TO edge. -/
theorem C10_duplicate_edges_witness :
    2 ≤ ((get_connected_subgraph C4graph ["g1", "t1"]).edges.filter
          (fun e => e = ("g1", "t1", (⟨some "CONTRIBUTES_TO"⟩ : EdgeData)))).length ∧
    ((get_connected_subgraph C4graph ["g1", "t1"]).nodes.map (fun n => n.id)).Nodup :=
  C10_duplicate_edges C4graph "g1" "t1" ⟨some "CONTRIBUTES_TO"⟩ (by decide) (by decide)

/-! ## Claim C1 -/

/-- The last input edge record with a given ordered `(source, target)`
pair, if any. -/
def lastEdge (es : List EdgeIn) (s t : String) : Option EdgeIn :=
  match es with
  | [] => none
  | e :: rest =>
    match lastEdge rest s t with
    | some e' => some e'
    | none => if e.source = s ∧ e.target = t then some e else none

/-- A boolean pair-key comparison fails when the propositional pair
equality fails. -/
theorem pair_beq_false {s t s' t' : String} (h : ¬(s = s' ∧ t = t')) :
    (s == s' && t == t') = false := by
  rcases not_and_or.mp h with h1 | h1 <;> simp [h1]

/-- `find?` after a dict-style `setEdge`: the updated key maps to the
new attributes and every other key is unchanged. -/
theorem find?_setEdge (l : List (String × String × EdgeData)) (s t s' t' : String)
    (d : EdgeData) :
    (setEdge l s t d).find? (fun e => e.1 == s' && e.2.1 == t') =
      if s = s' ∧ t = t' then some (s, t, d)
      else l.find? (fun e => e.1 == s' && e.2.1 == t') := by
  induction l with
  | nil =>
    by_cases h : s = s' ∧ t = t'
    · simp [setEdge, List.find?, h.1, h.2]
    · simp only [setEdge, List.find?, pair_beq_false h, if_neg h]
  | cons x xs ih =>
    by_cases hx : x.1 = s ∧ x.2.1 = t
    · have hxb : (x.1 == s && x.2.1 == t) = true := by simp [hx.1, hx.2]
      simp only [setEdge, hxb, if_true]
      by_cases h : s = s' ∧ t = t'
      · simp [List.find?, h.1, h.2]
      · have hxmiss : (x.1 == s' && x.2.1 == t') = false := by
          rw [hx.1, hx.2]; exact pair_beq_false h
        simp [List.find?, pair_beq_false h, hxmiss, if_neg h]
    · have hxb : (x.1 == s && x.2.1 == t) = false := pair_beq_false hx
      simp only [setEdge, hxb, Bool.false_eq_true, if_false]
      by_cases hx' : x.1 = s' ∧ x.2.1 = t'
      · have hxb' : (x.1 == s' && x.2.1 == t') = true := by simp [hx'.1, hx'.2]
        have hne : ¬(s = s' ∧ t = t') := by
          intro h
          exact hx ⟨hx'.1.trans h.1.symm, hx'.2.trans h.2.symm⟩
        simp [List.find?, hxb', if_neg hne]
      · have hxb' : (x.1 == s' && x.2.1 == t') = false := pair_beq_false hx'
        simp only [List.find?, hxb', Bool.false_eq_true, if_false]
        exact ih

/-- Edge lookup after one `add_edge`: the inserted pair now maps to the
new attribute dict, all other pairs are untouched. -/
theorem edgeLookup_addEdge (G : DiGraph) (e : EdgeIn) (s t : String) :
    edgeLookup (addEdge G e) s t =
      if e.source = s ∧ e.target = t then some ⟨e.type⟩ else edgeLookup G s t := by
  unfold edgeLookup addEdge
  rw [find?_setEdge]
  by_cases h : e.source = s ∧ e.target = t <;> simp [h]

/-- Edge lookup after folding `add_edge` over an input list: the last
input edge with the looked-up pair wins; pairs never inserted fall back
to the starting graph. -/
theorem edgeLookup_foldl_addEdge (es : List EdgeIn) (G : DiGraph) (s t : String) :
    edgeLookup (es.foldl addEdge G) s t =
      match lastEdge es s t with
      | some e => some ⟨e.type⟩
      | none => edgeLookup G s t := by
  induction es generalizing G with
  | nil => simp [lastEdge]
  | cons e rest ih =>
    have hcons : lastEdge (e :: rest) s t =
        match lastEdge rest s t with
        | some e' => some e'
        | none => if e.source = s ∧ e.target = t then some e else none := rfl
    rw [List.foldl_cons, ih (addEdge G e), hcons]
    cases lastEdge rest s t with
    | some e' => rfl
    | none =>
      by_cases h : e.source = s ∧ e.target = t
      · simp [edgeLookup_addEdge, h]
      · simp [edgeLookup_addEdge, h]

/-- Keys reachable from a `setEdge` are the inserted key or an old key. -/
theorem mem_keys_setEdge (l : List (String × String × EdgeData)) (s t : String)
    (d : EdgeData) (k : String × String)
    (h : k ∈ (setEdge l s t d).map (fun e => (e.1, e.2.1))) :
    k = (s, t) ∨ k ∈ l.map (fun e => (e.1, e.2.1)) := by
  induction l with
  | nil => simpa [setEdge] using h
  | cons x xs ih =>
    by_cases hx : (x.1 == s && x.2.1 == t) = true
    · simp only [setEdge, hx, if_true, List.map_cons, List.mem_cons] at h
      rcases h with h | h
      · exact Or.inl h
      · exact Or.inr (List.mem_cons_of_mem _ h)
    · simp only [setEdge, hx, if_false, Bool.false_eq_true, List.map_cons, List.mem_cons] at h
      rcases h with h | h
      · exact Or.inr (by simp [h])
      · rcases ih h with h' | h'
        · exact Or.inl h'
        · exact Or.inr (List.mem_cons_of_mem _ h')

/-- `setEdge` keeps the `(source, target)` key list duplicate-free. -/
theorem nodup_keys_setEdge (l : List (String × String × EdgeData)) (s t : String)
    (d : EdgeData) (h : (l.map (fun e => (e.1, e.2.1))).Nodup) :
    ((setEdge l s t d).map (fun e => (e.1, e.2.1))).Nodup := by
  induction l with
  | nil => simp [setEdge]
  | cons x xs ih =>
    rw [List.map_cons, List.nodup_cons] at h
    by_cases hx : (x.1 == s && x.2.1 == t) = true
    · have h1 := eq_of_beq (Bool.and_elim_left hx)
      have h2 := eq_of_beq (Bool.and_elim_right hx)
      simp only [setEdge, hx, if_true, List.map_cons, List.nodup_cons]
      refine ⟨?_, h.2⟩
      intro hmem
      exact h.1 (by simpa [h1, h2] using hmem)
    · simp only [setEdge, hx, Bool.false_eq_true, if_false, List.map_cons, List.nodup_cons]
      refine ⟨?_, ih h.2⟩
      intro hmem
      rcases mem_keys_setEdge xs s t d _ hmem with h' | h'
      · have hne : ¬(x.1 = s ∧ x.2.1 = t) := by
          intro hc
          simp [hc.1, hc.2] at hx
        exact hne ⟨congrArg Prod.fst h', congrArg Prod.snd h'⟩
      · exact h.1 h'

/-- Folding `add_edge` keeps the key list duplicate-free. -/
theorem nodup_keys_foldl_addEdge (es : List EdgeIn) (G : DiGraph)
    (h : (G.edges.map (fun e => (e.1, e.2.1))).Nodup) :
    (((es.foldl addEdge G).edges).map (fun e => (e.1, e.2.1))).Nodup := by
  induction es generalizing G with
  | nil => simpa using h
  | cons e rest ih =>
    exact ih (addEdge G e) (nodup_keys_setEdge G.edges e.source e.target ⟨e.type⟩ h)

/-- Adding nodes leaves the edge list empty. -/
theorem foldl_addNode_edges (ns : List NodeIn) (G : DiGraph) :
    (ns.foldl addNode G).edges = G.edges := by
  induction ns generalizing G with
  | nil => rfl
  | cons n rest ih => rw [List.foldl_cons]; exact ih (addNode G n)

/-- Nodes file content for the C1 counterexample. -/
def C1nodes : List NodeIn := [⟨"A", none, none, none⟩, ⟨"B", none, none, none⟩]

/-- Edges file content for the C1 counterexample: two edges with the
same ordered `(A, B)` pair and different types. -/
def C1edges : List EdgeIn := [⟨"A", "B", some "t1"⟩, ⟨"A", "B", some "t2"⟩]

/-- C1 counterexample: loading two edges with the same ordered
`(A, B)` pair but types "t1" and "t2" yields a graph whose edge list
holds a single edge carrying only "t2" — the "t1" triple is silently
dropped, contradicting the claim that both triples are retained. -/
theorem C1_counterexample :
    (load_graph C1nodes C1edges).edges = [("A", "B", (⟨some "t2"⟩ : EdgeData))] ∧
    ("A", "B", (⟨some "t1"⟩ : EdgeData)) ∉ (load_graph C1nodes C1edges).edges := by
  refine ⟨by decide, by decide⟩

/-- C1 (amended): `load_graph` keeps at most one edge per ordered
`(source, target)` pair — the key list of the loaded edge set is
duplicate-free — and the attributes stored for a pair are those of the
last input edge with that pair (`add_edge` on an `nx.DiGraph`
overwrites), so only the last `type` survives into any expansion. -/
theorem C1_last_edge_wins (ns : List NodeIn) (es : List EdgeIn) (s t : String) :
    edgeLookup (load_graph ns es) s t =
      (lastEdge es s t).map (fun e => (⟨e.type⟩ : EdgeData)) ∧
    (((load_graph ns es).edges).map (fun e => (e.1, e.2.1))).Nodup := by
  constructor
  · unfold load_graph
    rw [edgeLookup_foldl_addEdge]
    cases lastEdge es s t with
    | some e => simp
    | none =>
      simp only [Option.map_none']
      unfold edgeLookup
      rw [foldl_addNode_edges]
      rfl
  · unfold load_graph
    refine nodup_keys_foldl_addEdge es _ ?_
    rw [foldl_addNode_edges]
    simp

/-! ## Claims C2, C5, C8 -/

/-- Shape of every successful return of the by-name gene fetch: a
`not_found` outcome never sleeps although it already performed network
round-trips, while a found record sleeps exactly once after two
round-trips. -/
theorem fetch_gene_by_name_ok_shape (o : Entrez) (name : String) (org : Option String)
    (r : NCBIRecord) (tr : List Ev)
    (h : fetch_gene_info_by_name o name org = .ok (r, tr)) :
    (r.not_found = true ∧ (tr = [Ev.net] ∨ tr = [Ev.net, Ev.net])) ∨
    (r.not_found = false ∧ tr = [Ev.net, Ev.net, Ev.sleep]) := by
  simp only [fetch_gene_info_by_name] at h
  cases hq : o.esearchGene (name ++ "[Gene] AND " ++ org.getD "txid4081[Organism:exp]") with
  | error e =>
    simp only [hq] at h
    exact absurd h (by simp)
  | ok idlist =>
    simp only [hq] at h
    by_cases hemp : idlist.isEmpty
    · rw [if_pos hemp] at h
      simp only [Except.ok.injEq, Prod.mk.injEq] at h
      obtain ⟨rfl, rfl⟩ := h
      exact Or.inl ⟨rfl, Or.inl rfl⟩
    · rw [if_neg hemp] at h
      cases hsum : o.esummaryGene (String.intercalate "," idlist) with
      | error e =>
        simp only [hsum] at h
        exact absurd h (by simp)
      | ok docs =>
        simp only [hsum] at h
        cases hbest : (match docs.find? (fun d => pyLower (d.name.getD "") == pyLower name) with
            | some d => some d
            | none => docs.head?) with
        | none =>
          simp only [hbest] at h
          simp only [Except.ok.injEq, Prod.mk.injEq] at h
          obtain ⟨rfl, rfl⟩ := h
          exact Or.inl ⟨rfl, Or.inr rfl⟩
        | some d =>
          simp only [hbest] at h
          simp only [Except.ok.injEq, Prod.mk.injEq] at h
          obtain ⟨rfl, rfl⟩ := h
          exact Or.inr ⟨rfl, rfl⟩

/-- Shape of every successful cache-miss return of the protein fetch:
`not_found` outcomes leave the cache untouched and never sleep despite
their network round-trips; found records are written through to the
cache under `"protein:{name}"` and sleep once. -/
theorem fetch_protein_miss_shape (o : Entrez) (c : Cache) (name : String)
    (org : Option String) (r : NCBIRecord) (c' : Cache) (tr : List Ev)
    (hmiss : lookupCache c ("protein:" ++ name) = none)
    (h : fetch_protein_info o c name org = .ok (r, c', tr)) :
    (r.not_found = true ∧ c' = c ∧ (tr = [Ev.net] ∨ tr = [Ev.net, Ev.net])) ∨
    (r.not_found = false ∧ c' = insertCache c ("protein:" ++ name) r ∧
      tr = [Ev.net, Ev.net, Ev.sleep]) := by
  simp only [fetch_protein_info, hmiss] at h
  cases hq : o.esearchProtein (name ++ " AND " ++ org.getD "txid4081[Organism:exp]") with
  | error e =>
    simp only [hq] at h
    exact absurd h (by simp)
  | ok idlist =>
    simp only [hq] at h
    by_cases hemp : idlist.isEmpty
    · rw [if_pos hemp] at h
      simp only [Except.ok.injEq, Prod.mk.injEq] at h
      obtain ⟨rfl, rfl, rfl⟩ := h
      exact Or.inl ⟨rfl, rfl, Or.inl rfl⟩
    · rw [if_neg hemp] at h
      cases hsum : o.esummaryProtein (String.intercalate "," idlist) with
      | error e =>
        simp only [hsum] at h
        exact absurd h (by simp)
      | ok docs =>
        simp only [hsum] at h
        cases hbest : (match docs.find? (fun d =>
              pyLower (headSplitDot (d.accessionVersion.getD "")) ==
                pyLower (headSplitDot name)) with
            | some d => some d
            | none => docs.head?) with
        | none =>
          simp only [hbest] at h
          simp only [Except.ok.injEq, Prod.mk.injEq] at h
          obtain ⟨rfl, rfl, rfl⟩ := h
          exact Or.inl ⟨rfl, rfl, Or.inr rfl⟩
        | some d =>
          simp only [hbest] at h
          simp only [Except.ok.injEq, Prod.mk.injEq] at h
          obtain ⟨rfl, rfl, rfl⟩ := h
          exact Or.inr ⟨rfl, rfl, rfl⟩

/-- A protein lookup answered from the cache returns the stored record
with no network round-trip and no delay. -/
theorem fetch_protein_hit (o : Entrez) (c : Cache) (name : String)
    (org : Option String) (r : NCBIRecord)
    (hhit : lookupCache c ("protein:" ++ name) = some r) :
    fetch_protein_info o c name org = .ok (r, c, []) := by
  simp only [fetch_protein_info, hhit]

/-- Shape of every successful cache-miss return of the by-GeneID fetch:
found or not, the result is cached and the single network round-trip is
followed by exactly one delay. -/
theorem fetch_geneid_miss_shape (o : Entrez) (c : Cache) (gid : String)
    (r : NCBIRecord) (c' : Cache) (tr : List Ev)
    (hmiss : lookupCache c ("gid:" ++ gid) = none)
    (h : fetch_gene_info_by_geneid o c gid = .ok (r, c', tr)) :
    c' = insertCache c ("gid:" ++ gid) r ∧ tr = [Ev.net, Ev.sleep] := by
  simp only [fetch_gene_info_by_geneid, hmiss] at h
  cases hq : o.esummaryGene gid with
  | error e =>
    simp only [hq] at h
    exact absurd h (by simp)
  | ok docs =>
    simp only [hq] at h
    simp only [Except.ok.injEq, Prod.mk.injEq] at h
    obtain ⟨rfl, rfl, rfl⟩ := h
    exact ⟨rfl, rfl⟩

/-- A by-GeneID lookup answered from the cache returns the stored
record with no network round-trip and no delay. -/
theorem fetch_geneid_hit (o : Entrez) (c : Cache) (gid : String) (r : NCBIRecord)
    (hhit : lookupCache c ("gid:" ++ gid) = some r) :
    fetch_gene_info_by_geneid o c gid = .ok (r, c, []) := by
  simp only [fetch_gene_info_by_geneid, hhit]

/-- A concrete oracle whose gene search succeeds: one search hit and one
summary document named "g". -/
def okGeneOracle : Entrez :=
  { esearchGene := fun _ => .ok ["1"],
    esummaryGene := fun _ => .ok [{ name := some "g" }],
    esearchProtein := fun _ => .ok [],
    esummaryProtein := fun _ => .ok [] }

/-- A concrete oracle whose protein search succeeds with accession
"P1.2". -/
def okProtOracle : Entrez :=
  { esearchGene := fun _ => .ok [],
    esummaryGene := fun _ => .ok [],
    esearchProtein := fun _ => .ok ["7"],
    esummaryProtein := fun _ => .ok [{ accessionVersion := some "P1.2", title := some "prot" }] }

/-- A concrete oracle whose searches all come back empty. -/
def emptyOracle : Entrez :=
  { esearchGene := fun _ => .ok [],
    esummaryGene := fun _ => .ok [],
    esearchProtein := fun _ => .ok [],
    esummaryProtein := fun _ => .ok [] }

/-- A concrete oracle whose every call raises. -/
def errOracle : Entrez :=
  { esearchGene := fun _ => .error "boom",
    esummaryGene := fun _ => .error "boom",
    esearchProtein := fun _ => .error "boom",
    esummaryProtein := fun _ => .error "boom" }

/-- C2 counterexample: a successful by-name gene lookup performs two
network round-trips and consults no cache — `fetch_gene_info_by_name`
has no cache lookup or write at all — so a second call with identical
arguments is the very same computation and performs two further
round-trips: two calls make four network calls, not one, and the second
is not a cache hit. -/
theorem C2_counterexample :
    (fetch_gene_info_by_name okGeneOracle "g" none).map
        (fun p => (netCount p.2, sleepCount p.2, p.1.not_found)) = .ok (2, 1, false) := by
  rfl

/-- C2 (amended): the idempotent-cache behaviour holds for protein
lookups that find a record: the first (cache-missing) call writes the
normalized record into the cache under `"protein:{name}"`, and a second
identical call returns that record from the cache with no network
round-trip and no delay.  By-name gene lookups are never cached, and
`not_found` protein outcomes are not written to the cache either. -/
theorem C2_protein_cache_idempotent (o : Entrez) (c : Cache) (name : String)
    (org : Option String) (r : NCBIRecord) (c' : Cache) (tr : List Ev)
    (hmiss : lookupCache c ("protein:" ++ name) = none)
    (hfetch : fetch_protein_info o c name org = .ok (r, c', tr))
    (hfound : r.not_found = false) :
    lookupCache c' ("protein:" ++ name) = some r ∧
    fetch_protein_info o c' name org = .ok (r, c', []) := by
  rcases fetch_protein_miss_shape o c name org r c' tr hmiss hfetch with
    ⟨hnf, _, _⟩ | ⟨_, hc, _⟩
  · rw [hnf] at hfound
    exact absurd hfound (by simp)
  · subst hc
    exact ⟨lookupCache_insertCache_self c _ r,
      fetch_protein_hit o _ name org r (lookupCache_insertCache_self c _ r)⟩

/-- The record `fetch_protein_info` computes for "P1" under
`okProtOracle`. -/
def C2rec : NCBIRecord :=
  { query := some "P1", description := some "prot", organism := some "",
    accessionVersion := some "P1.2", sequenceLength := some "" }

/-- The cache state after the first "P1" lookup. -/
def C2cache : Cache := [("protein:P1", C2rec)]

/-- C2 witness: the amended theorem applied to a concrete first lookup
of "P1" from the empty cache. -/
theorem C2_protein_cache_idempotent_witness :
    lookupCache C2cache ("protein:" ++ "P1") = some C2rec ∧
    fetch_protein_info okProtOracle C2cache "P1" none = .ok (C2rec, C2cache, []) :=
  C2_protein_cache_idempotent okProtOracle [] "P1" none C2rec C2cache
    [Ev.net, Ev.net, Ev.sleep] rfl rfl rfl

/-- C5: batch robustness of `fetch_multiple_nodes_info` — (1) the
output list always has exactly the length of the input list, whatever
the oracle, cache and organism; (2) an entity whose lookup raises is
converted in place to the `{_key, not_found: true, error}` record and
the remaining entities are processed exactly as they would have been
without it (same cache, same results). -/
theorem C5_batch_robustness :
    (∀ (o : Entrez) (c : Cache) (ns : List BatchNode) (org : Option String),
        (fetch_multiple_nodes_info o c ns org).1.length = ns.length) ∧
    (∀ (o : Entrez) (c : Cache) (n : BatchNode) (rest : List BatchNode)
        (org : Option String) (e : String),
        fetchOneNode o c n org = .error e →
        (fetch_multiple_nodes_info o c (n :: rest) org).1 =
          errRec n e :: (fetch_multiple_nodes_info o c rest org).1) := by
  constructor
  · intro o c ns org
    induction ns generalizing c with
    | nil => rfl
    | cons n rest ih =>
      simp only [fetch_multiple_nodes_info]
      cases hf : fetchOneNode o c n org with
      | ok p =>
        obtain ⟨r, c', tr⟩ := p
        simp only [hf, List.length_cons, ih c']
      | error e =>
        simp only [hf, List.length_cons, ih c]
  · intro o c n rest org e hf
    simp only [fetch_multiple_nodes_info, hf]

/-- C5 witness: a batch whose single gene entity raises "boom" yields
exactly the error record followed by the (empty) rest of the batch. -/
theorem C5_batch_robustness_witness :
    (fetch_multiple_nodes_info errOracle [] [⟨none, some "g", none⟩] none).1 =
      errRec ⟨none, some "g", none⟩ "boom" ::
        (fetch_multiple_nodes_info errOracle [] [] none).1 :=
  C5_batch_robustness.2 errOracle [] ⟨none, some "g", none⟩ [] none "boom" rfl

/-- C8 counterexample: a by-name gene lookup whose search comes back
empty has performed one network round-trip, ends `not_found`, and
returns with zero delays — the fixed inter-call delay is skipped on
this network-using path, contradicting the claim that every lookup with
at least one round-trip applies it. -/
theorem C8_counterexample :
    (fetch_gene_info_by_name emptyOracle "g" none).map
        (fun p => (netCount p.2, sleepCount p.2, p.1.not_found)) = .ok (1, 0, true) := by
  rfl

/-- C8 (amended): the delay discipline actually implemented — (1) a
by-name gene lookup sleeps exactly once when it returns a found record
and never when it ends `not_found`, though both perform network
round-trips; (2) the same for cache-missing protein lookups; (3) a
cached protein lookup performs no round-trip and no delay; (4) a
cache-missing by-GeneID lookup always sleeps exactly once after its
single round-trip, found or not; (5) a cached by-GeneID lookup performs
no round-trip and no delay. -/
theorem C8_delay_discipline :
    (∀ (o : Entrez) (name : String) (org : Option String) (r : NCBIRecord) (tr : List Ev),
        fetch_gene_info_by_name o name org = .ok (r, tr) →
        sleepCount tr = (if r.not_found then 0 else 1) ∧ 1 ≤ netCount tr) ∧
    (∀ (o : Entrez) (c : Cache) (name : String) (org : Option String)
        (r : NCBIRecord) (c' : Cache) (tr : List Ev),
        lookupCache c ("protein:" ++ name) = none →
        fetch_protein_info o c name org = .ok (r, c', tr) →
        sleepCount tr = (if r.not_found then 0 else 1) ∧ 1 ≤ netCount tr) ∧
    (∀ (o : Entrez) (c : Cache) (name : String) (org : Option String) (r : NCBIRecord),
        lookupCache c ("protein:" ++ name) = some r →
        fetch_protein_info o c name org = .ok (r, c, [])) ∧
    (∀ (o : Entrez) (c : Cache) (gid : String) (r : NCBIRecord) (c' : Cache) (tr : List Ev),
        lookupCache c ("gid:" ++ gid) = none →
        fetch_gene_info_by_geneid o c gid = .ok (r, c', tr) →
        sleepCount tr = 1 ∧ netCount tr = 1) ∧
    (∀ (o : Entrez) (c : Cache) (gid : String) (r : NCBIRecord),
        lookupCache c ("gid:" ++ gid) = some r →
        fetch_gene_info_by_geneid o c gid = .ok (r, c, [])) := by
  refine ⟨?_, ?_, ?_, ?_, ?_⟩
  · intro o name org r tr h
    rcases fetch_gene_by_name_ok_shape o name org r tr h with ⟨hnf, htr⟩ | ⟨hnf, htr⟩
    · rcases htr with rfl | rfl <;> exact ⟨by rw [hnf]; decide, by decide⟩
    · subst htr
      exact ⟨by rw [hnf]; decide, by decide⟩
  · intro o c name org r c' tr hmiss h
    rcases fetch_protein_miss_shape o c name org r c' tr hmiss h with
      ⟨hnf, _, htr⟩ | ⟨hnf, _, htr⟩
    · rcases htr with rfl | rfl <;> exact ⟨by rw [hnf]; decide, by decide⟩
    · subst htr
      exact ⟨by rw [hnf]; decide, by decide⟩
  · intro o c name org r hhit
    exact fetch_protein_hit o c name org r hhit
  · intro o c gid r c' tr hmiss h
    obtain ⟨_, rfl⟩ := fetch_geneid_miss_shape o c gid r c' tr hmiss h
    exact ⟨by decide, by decide⟩
  · intro o c gid r hhit
    exact fetch_geneid_hit o c gid r hhit

/-- The record `fetch_gene_info_by_name` computes for "g" under
`okGeneOracle`. -/
def C8rec : NCBIRecord :=
  { query := some "g", name := some "g", description := some "",
    chromosome := some "", otherAliases := some "", summary := some "",
    organism := some "", genomicInfo := some "" }

/-- C8 witness: the first clause of the delay discipline applied to a
concrete successful gene lookup. -/
theorem C8_delay_discipline_witness :
    sleepCount [Ev.net, Ev.net, Ev.sleep] = (if C8rec.not_found then 0 else 1) ∧
    1 ≤ netCount [Ev.net, Ev.net, Ev.sleep] :=
  C8_delay_discipline.1 okGeneOracle "g" none C8rec [Ev.net, Ev.net, Ev.sleep] rfl
